import Mathlib

/-!
Shallow embedding of the DSP core of the 8D-Audio-Converter repository.

A stereo sample buffer (a numpy array of shape (num_frames, 2)) is modelled
as a `List (α × α)` of frames.  Stages whose arithmetic is rational
(normalisation, trimming, the Haas stereo-width delay, parameter
validation) are modelled over `ℚ`; stages built from transcendental
functions (the sinusoidal auto-pan, the vinyl-warmth tanh saturation) are
modelled over `ℝ`.  Python code that raises on its input (numpy reductions
over empty arrays, division by a zero sample rate) is modelled with
`Option`/`Except`, `none`/`error` standing for the raised exception.
-/

open Real List

/-- Truncation toward zero: the semantics of Python's int() on a rational. -/
def ratTrunc (q : ℚ) : ℤ :=
  if 0 ≤ q then ⌊q⌋ else -⌊-q⌋

/-- Peak absolute sample of a stereo buffer: np.max(np.abs(samples)) over a
(num_frames, 2) array, as a fold returning 0 on the empty buffer.  Callers
that must reflect numpy's exception on an empty reduction guard for the
empty buffer separately. -/
def peakAbs {α : Type} [LinearOrderedField α] (samples : List (α × α)) : α :=
  samples.foldr (fun s acc => max (max |s.1| |s.2|) acc) 0

/-- converter/effects.py, normalize_audio: peak = float(np.max(np.abs(samples)));
if peak > 0: return (samples / peak) * 0.99; return samples.
np.max raises ValueError on an empty array, modelled by none. -/
def normalize_audio (samples : List (ℚ × ℚ)) : Option (List (ℚ × ℚ)) :=
  if samples = [] then none
  else
    let peak := peakAbs samples
    if 0 < peak then
      some (samples.map (fun s => (s.1 / peak * (99 / 100), s.2 / peak * (99 / 100))))
    else some samples

/-- infrastructure/audio/numpy_audio_trimmer.py: start_frame = max(0, int(start_sec * sample_rate)). -/
def trimStartFrame (sampleRate : ℕ) (startSec : ℚ) : ℤ :=
  max 0 (ratTrunc (startSec * sampleRate))

/-- infrastructure/audio/numpy_audio_trimmer.py: end_frame = len(samples) if
end_sec <= 0 or end_sec >= total_duration else min(len(samples), int(end_sec * sample_rate)). -/
def trimEndFrame (numFrames sampleRate : ℕ) (endSec : ℚ) : ℤ :=
  if endSec ≤ 0 ∨ (numFrames : ℚ) / (sampleRate : ℚ) ≤ endSec then (numFrames : ℤ)
  else min (numFrames : ℤ) (ratTrunc (endSec * sampleRate))

/-- NumpyAudioTrimmer.trim.  total_duration = len(samples) / sample_rate raises
ZeroDivisionError when sample_rate = 0, modelled by none; the Python slice
samples[start_frame:end_frame] with 0 <= start < end <= len is drop-then-take. -/
def trim (samples : List (ℚ × ℚ)) (sampleRate : ℕ) (startSec endSec : ℚ) :
    Option (List (ℚ × ℚ)) :=
  if sampleRate = 0 then none
  else if startSec ≤ 0 ∧
      (endSec ≤ 0 ∨ (samples.length : ℚ) / (sampleRate : ℚ) ≤ endSec) then
    some samples
  else if trimEndFrame samples.length sampleRate endSec ≤
      trimStartFrame sampleRate startSec then
    some samples
  else
    some ((samples.drop (trimStartFrame sampleRate startSec).toNat).take
      (trimEndFrame samples.length sampleRate endSec -
        trimStartFrame sampleRate startSec).toNat)

/-- StereoWidthEffect.apply: delay_samples = int(sample_rate * (width * 20.0) / 1000.0). -/
def haasDelay (sampleRate : ℕ) (width : ℚ) : ℤ :=
  ratTrunc ((sampleRate : ℚ) * (width * 20) / 1000)

/-- infrastructure/audio/effects/stereo_width_effect.py, StereoWidthEffect.apply:
identity when width <= 0.01 or the integer delay is <= 0; otherwise the right
channel becomes right[:d] on the first d frames (the original head, not zeros)
followed by right[:-d]; the left channel is copied unchanged. -/
def stereoWidthApply (samples : List (ℚ × ℚ)) (sampleRate : ℕ) (width : ℚ) :
    List (ℚ × ℚ) :=
  if width ≤ 0.01 then samples
  else if haasDelay sampleRate width ≤ 0 then samples
  else
    List.zipWith (fun s r => (s.1, r)) samples
      ((samples.map Prod.snd).take (haasDelay sampleRate width).toNat ++
        (samples.map Prod.snd).take
          (samples.length - (haasDelay sampleRate width).toNat))

/-- Structured content of the ValueError message built by
converter/utils.py validate_param_range: the parameter name, the offending
value and the two bounds interpolated into the message string. -/
structure RangeError where
  name : String
  value : ℚ
  minVal : ℚ
  maxVal : ℚ
  deriving DecidableEq, Repr

/-- Errors surfaced by the conversion pipeline: a parameter range ValueError,
or any error raised by a collaborator stage (file validation, codec, export). -/
inductive ConvErr where
  | range (e : RangeError)
  | other (msg : String)
  deriving DecidableEq, Repr

/-- converter/utils.py, validate_param_range: raise ValueError unless
min_val <= value <= max_val. -/
def validate_param_range (value : ℚ) (name : String) (minVal maxVal : ℚ) :
    Except ConvErr Unit :=
  if minVal ≤ value ∧ value ≤ maxVal then Except.ok ()
  else Except.error (ConvErr.range ⟨name, value, minVal, maxVal⟩)

/-- The five numeric parameters of converter/core.py convert_to_8d. -/
structure ConvertParams where
  panSpeed : ℚ
  panDepth : ℚ
  roomSize : ℚ
  wetLevel : ℚ
  damping : ℚ
  deriving DecidableEq, Repr

/-- External collaborators of convert_to_8d: path validation, audio decode
(including the 10-minute duration guard), the two float-DSP stages and the
export encoder.  They are parameters of the model so that theorems can
quantify over them: a result independent of every collaborator shows the
collaborators were never consulted. -/
structure Collab where
  checkInput : Except ConvErr Unit
  checkOutput : Except ConvErr Unit
  load : Except ConvErr (List (ℚ × ℚ) × ℕ)
  pan : List (ℚ × ℚ) → ℕ → ℚ → ℚ → List (ℚ × ℚ)
  reverb : List (ℚ × ℚ) → ℕ → ℚ → ℚ → ℚ → List (ℚ × ℚ)
  exportOut : List (ℚ × ℚ) → ℕ → Except ConvErr Unit

/-- converter/core.py, convert_to_8d: input/output path validation, then the
five range checks in source order, then load → pan → reverb → normalize →
export. -/
def convert_to_8d (c : Collab) (p : ConvertParams) : Except ConvErr Unit := do
  c.checkInput
  c.checkOutput
  validate_param_range p.panSpeed "pan_speed" (1 / 100) 2
  validate_param_range p.panDepth "pan_depth" 0 1
  validate_param_range p.roomSize "room_size" 0 1
  validate_param_range p.wetLevel "wet_level" 0 1
  validate_param_range p.damping "damping" 0 1
  let (samples, sr) ← c.load
  let s1 := c.pan samples sr p.panSpeed p.panDepth
  let s2 := c.reverb s1 sr p.roomSize p.wetLevel p.damping
  let s3 ← match normalize_audio s2 with
    | some v => Except.ok v
    | none => Except.error (ConvErr.other "zero-size array to reduction operation maximum")
  c.exportOut s3 sr

/-- All five numeric parameters of convert_to_8d are inside their documented
ranges. -/
def paramsInRange (p : ConvertParams) : Prop :=
  (1 / 100 ≤ p.panSpeed ∧ p.panSpeed ≤ 2) ∧ (0 ≤ p.panDepth ∧ p.panDepth ≤ 1) ∧
  (0 ≤ p.roomSize ∧ p.roomSize ≤ 1) ∧ (0 ≤ p.wetLevel ∧ p.wetLevel ≤ 1) ∧
  (0 ≤ p.damping ∧ p.damping ≤ 1)

instance (p : ConvertParams) : Decidable (paramsInRange p) := by
  unfold paramsInRange; infer_instance

/-- The string n names a parameter of convert_to_8d whose value in p is
outside its documented range. -/
def badParamNamed (p : ConvertParams) (n : String) : Prop :=
  (n = "pan_speed" ∧ ¬(1 / 100 ≤ p.panSpeed ∧ p.panSpeed ≤ 2)) ∨
  (n = "pan_depth" ∧ ¬(0 ≤ p.panDepth ∧ p.panDepth ≤ 1)) ∨
  (n = "room_size" ∧ ¬(0 ≤ p.roomSize ∧ p.roomSize ≤ 1)) ∨
  (n = "wet_level" ∧ ¬(0 ≤ p.wetLevel ∧ p.wetLevel ≤ 1)) ∨
  (n = "damping" ∧ ¬(0 ≤ p.damping ∧ p.damping ≤ 1))

/-- A concrete collaborator assignment whose path checks succeed and whose
stages are inert, used to instantiate theorems about convert_to_8d. -/
def trivCollab : Collab where
  checkInput := Except.ok ()
  checkOutput := Except.ok ()
  load := Except.ok ([], 0)
  pan := fun s _ _ _ => s
  reverb := fun s _ _ _ _ => s
  exportOut := fun _ _ => Except.ok ()

/-- np.linspace(0, stop, num): num evenly spaced values from 0 to stop, the
endpoint included, i.e. stop * i / (num - 1) at index i (0 when num = 1,
since 0/0 = 0 in Lean mirrors numpy returning the start point). -/
noncomputable def linspace (stop : ℝ) (num : ℕ) : List ℝ :=
  (List.range num).map (fun (i : ℕ) => stop * (i : ℝ) / ((num : ℝ) - 1))

/-- converter/effects.py, apply_panning: the per-frame panning angles.
t = np.linspace(0, num_frames / sample_rate, num_frames);
raw_pan = np.sin(2 * np.pi * pan_speed * t) * pan_depth;
pan_position = (raw_pan + 1.0) / 2.0; angle = pan_position * (np.pi / 2.0). -/
noncomputable def panAngles (numFrames sampleRate : ℕ) (panSpeed panDepth : ℝ) :
    List ℝ :=
  let t := linspace ((numFrames : ℝ) / (sampleRate : ℝ)) numFrames
  let rawPan := t.map (fun x => Real.sin (2 * π * panSpeed * x) * panDepth)
  let panPosition := rawPan.map (fun r => (r + 1) / 2)
  panPosition.map (fun p => p * (π / 2))

/-- converter/effects.py, apply_panning: left_gain = np.cos(angle). -/
noncomputable def leftGains (numFrames sampleRate : ℕ) (panSpeed panDepth : ℝ) :
    List ℝ :=
  (panAngles numFrames sampleRate panSpeed panDepth).map Real.cos

/-- converter/effects.py, apply_panning: right_gain = np.sin(angle). -/
noncomputable def rightGains (numFrames sampleRate : ℕ) (panSpeed panDepth : ℝ) :
    List ℝ :=
  (panAngles numFrames sampleRate panSpeed panDepth).map Real.sin

/-- converter/effects.py, apply_panning (the same arithmetic as
Rotate8DEffect.apply): panned[:, 0] = samples[:, 0] * left_gain;
panned[:, 1] = samples[:, 1] * right_gain, on a copy of the input. -/
noncomputable def apply_panning (samples : List (ℝ × ℝ)) (sampleRate : ℕ)
    (panSpeed panDepth : ℝ) : List (ℝ × ℝ) :=
  let lg := leftGains samples.length sampleRate panSpeed panDepth
  let rg := rightGains samples.length sampleRate panSpeed panDepth
  (samples.zip (lg.zip rg)).map (fun sg => (sg.1.1 * sg.2.1, sg.1.2 * sg.2.2))

/-- Modelled from the spec claim for C1: the per-frame output of the Rotation
effect with the time axis t = frame_index / sample_rate exactly as the
specification words it.  This is the refinement target compared against
apply_panning, whose time axis is the endpoint-inclusive linspace grid. -/
noncomputable def specPanFrame (s : ℝ × ℝ) (sampleRate : ℕ)
    (panSpeed panDepth : ℝ) (i : ℕ) : ℝ × ℝ :=
  let t : ℝ := (i : ℝ) / (sampleRate : ℝ)
  let raw := Real.sin (2 * π * panSpeed * t) * panDepth
  let p := (raw + 1) / 2
  let angle := p * (π / 2)
  (s.1 * Real.cos angle, s.2 * Real.sin angle)

/-- VinylWarmthEffect.apply inner loop, continuing from an already produced
output sample prev: channel[i] = channel[i-1] + alpha * (channel[i] - channel[i-1])
where channel[i-1] is the previously written output. -/
noncomputable def iirStep (alpha : ℝ) (prev : ℝ) : List ℝ → List ℝ
  | [] => []
  | x :: xs =>
    let y := prev + alpha * (x - prev)
    y :: iirStep alpha y xs

/-- VinylWarmthEffect.apply low-pass: the loop runs for i in range(1, len),
so the first sample is left as is and seeds the recurrence. -/
noncomputable def lowpass (alpha : ℝ) : List ℝ → List ℝ
  | [] => []
  | x :: xs => x :: iirStep alpha x xs

/-- VinylWarmthEffect.apply, filter and saturation stages (the value of the
result array right after result = np.tanh(result)): first-order IIR low-pass
per channel with cutoff 16000 - warmth * 12000 clamped to
[2000, 0.45 * sample_rate] and alpha = dt / (rc + dt), then drive by
1 + warmth * 3 and tanh soft clipping. -/
noncomputable def vinylDriven (samples : List (ℝ × ℝ)) (sampleRate : ℕ)
    (warmth : ℝ) : List (ℝ × ℝ) :=
  let cutoff : ℝ := max 2000 (min (16000 - warmth * 12000) ((sampleRate : ℝ) * 0.45))
  let rc : ℝ := 1 / (2 * π * cutoff)
  let dt : ℝ := 1 / (sampleRate : ℝ)
  let alpha : ℝ := dt / (rc + dt)
  let drive : ℝ := 1 + warmth * 3
  let filtL := lowpass alpha (samples.map Prod.fst)
  let filtR := lowpass alpha (samples.map Prod.snd)
  (filtL.zip filtR).map
    (fun s => (Real.tanh (s.1 * drive), Real.tanh (s.2 * drive)))

/-- infrastructure/audio/effects/vinyl_warmth_effect.py, VinylWarmthEffect.apply:
identity when warmth <= 0.01; otherwise low-pass, drive and tanh soft clip
(vinylDriven), then rescale by 0.99 / peak when the peak exceeds 0.99.
np.max raises on the empty buffer in the non-identity branch, modelled by
none. -/
noncomputable def vinylWarmthApply (samples : List (ℝ × ℝ)) (sampleRate : ℕ)
    (warmth : ℝ) : Option (List (ℝ × ℝ)) :=
  if warmth ≤ 0.01 then some samples
  else if samples = [] then none
  else if 0.99 < peakAbs (vinylDriven samples sampleRate warmth) then
    some ((vinylDriven samples sampleRate warmth).map (fun s =>
      (s.1 * (0.99 / peakAbs (vinylDriven samples sampleRate warmth)),
        s.2 * (0.99 / peakAbs (vinylDriven samples sampleRate warmth)))))
  else some (vinylDriven samples sampleRate warmth)

/-! Helper lemmas shared by the claim theorems. -/

lemma peakAbs_nonneg {α : Type} [LinearOrderedField α] (l : List (α × α)) :
    0 ≤ peakAbs l := by
  induction l with
  | nil => simp [peakAbs]
  | cons a t ih =>
    simp only [peakAbs, List.foldr_cons] at ih ⊢
    exact le_max_of_le_right ih

lemma peakAbs_cons {α : Type} [LinearOrderedField α] (a : α × α) (t : List (α × α)) :
    peakAbs (a :: t) = max (max |a.1| |a.2|) (peakAbs t) := rfl

lemma peakAbs_map_mul {α : Type} [LinearOrderedField α] (l : List (α × α))
    (c : α) (hc : 0 ≤ c) :
    peakAbs (l.map (fun s => (s.1 * c, s.2 * c))) = peakAbs l * c := by
  induction l with
  | nil => simp [peakAbs]
  | cons a t ih =>
    simp only [List.map_cons, peakAbs_cons, ih]
    rw [abs_mul, abs_mul, abs_of_nonneg hc, max_mul_of_nonneg _ _ hc,
      max_mul_of_nonneg _ _ hc]

lemma linspace_getElem (stop : ℝ) (num i : ℕ) (hi : i < num) :
    (linspace stop num)[i]? = some (stop * i / ((num : ℝ) - 1)) := by
  unfold linspace
  rw [List.getElem?_map, List.getElem?_range hi, Option.map_some']

lemma panAngles_getElem (n sr : ℕ) (speed depth : ℝ) (i : ℕ) (hi : i < n) :
    (panAngles n sr speed depth)[i]? =
      some ((Real.sin (2 * π * speed * ((n : ℝ) / (sr : ℝ) * i / ((n : ℝ) - 1))) *
        depth + 1) / 2 * (π / 2)) := by
  unfold panAngles
  simp only [List.getElem?_map, linspace_getElem _ _ _ hi, Option.map_some']

lemma leftGains_getElem (n sr : ℕ) (speed depth : ℝ) (i : ℕ) (hi : i < n) :
    (leftGains n sr speed depth)[i]? =
      some (Real.cos ((Real.sin (2 * π * speed *
        ((n : ℝ) / (sr : ℝ) * i / ((n : ℝ) - 1))) * depth + 1) / 2 * (π / 2))) := by
  unfold leftGains
  rw [List.getElem?_map, panAngles_getElem _ _ _ _ _ hi, Option.map_some']

lemma rightGains_getElem (n sr : ℕ) (speed depth : ℝ) (i : ℕ) (hi : i < n) :
    (rightGains n sr speed depth)[i]? =
      some (Real.sin ((Real.sin (2 * π * speed *
        ((n : ℝ) / (sr : ℝ) * i / ((n : ℝ) - 1))) * depth + 1) / 2 * (π / 2))) := by
  unfold rightGains
  rw [List.getElem?_map, panAngles_getElem _ _ _ _ _ hi, Option.map_some']

lemma apply_panning_getElem (samples : List (ℝ × ℝ)) (sr : ℕ) (speed depth : ℝ)
    (i : ℕ) (s : ℝ × ℝ) (hs : samples[i]? = some s) :
    (apply_panning samples sr speed depth)[i]? =
      some (s.1 * Real.cos ((Real.sin (2 * π * speed *
              ((samples.length : ℝ) / (sr : ℝ) * i / ((samples.length : ℝ) - 1))) *
              depth + 1) / 2 * (π / 2)),
            s.2 * Real.sin ((Real.sin (2 * π * speed *
              ((samples.length : ℝ) / (sr : ℝ) * i / ((samples.length : ℝ) - 1))) *
              depth + 1) / 2 * (π / 2))) := by
  have hi : i < samples.length := by
    rcases List.getElem?_eq_some_iff.mp hs with ⟨h, -⟩
    exact h
  have hl := leftGains_getElem samples.length sr speed depth i hi
  have hr := rightGains_getElem samples.length sr speed depth i hi
  set A : ℝ := (Real.sin (2 * π * speed *
      ((samples.length : ℝ) / (sr : ℝ) * i / ((samples.length : ℝ) - 1))) *
      depth + 1) / 2 * (π / 2) with hA
  have hz : ((leftGains samples.length sr speed depth).zip
      (rightGains samples.length sr speed depth))[i]? =
      some (Real.cos A, Real.sin A) :=
    List.getElem?_zip_eq_some.mpr ⟨hl, hr⟩
  have hz2 : (samples.zip ((leftGains samples.length sr speed depth).zip
      (rightGains samples.length sr speed depth)))[i]? =
      some (s, (Real.cos A, Real.sin A)) :=
    List.getElem?_zip_eq_some.mpr ⟨hs, hz⟩
  unfold apply_panning
  rw [List.getElem?_map, hz2, Option.map_some']

lemma normalize_audio_pos (B : List (ℚ × ℚ)) (hB : B ≠ []) (hp : 0 < peakAbs B) :
    normalize_audio B = some (B.map (fun s =>
      (s.1 / peakAbs B * (99 / 100), s.2 / peakAbs B * (99 / 100)))) := by
  unfold normalize_audio
  rw [if_neg hB, if_pos hp]

lemma normalize_audio_zero (B : List (ℚ × ℚ)) (hB : B ≠ []) (hp : ¬ 0 < peakAbs B) :
    normalize_audio B = some B := by
  unfold normalize_audio
  rw [if_neg hB, if_neg hp]

lemma normalize_map_eq (B : List (ℚ × ℚ)) :
    B.map (fun s => (s.1 / peakAbs B * (99 / 100), s.2 / peakAbs B * (99 / 100))) =
    B.map (fun s => (s.1 * (99 / 100 / peakAbs B), s.2 * (99 / 100 / peakAbs B))) := by
  apply List.map_congr_left
  intro a _
  simp only [Prod.mk.injEq]
  constructor <;> ring

lemma peakAbs_normalize (B : List (ℚ × ℚ)) (hp : 0 < peakAbs B) :
    peakAbs (B.map (fun s =>
      (s.1 / peakAbs B * (99 / 100), s.2 / peakAbs B * (99 / 100)))) = 99 / 100 := by
  rw [normalize_map_eq B,
    peakAbs_map_mul B _ (div_nonneg (by norm_num) (le_of_lt hp)),
    mul_comm, div_mul_cancel₀ _ (ne_of_gt hp)]

/-- Claim C4: for a nonempty buffer B, normalize_audio scales every sample by
0.99/peak when the peak is positive, making the output peak exactly 0.99;
it returns B unchanged when B is silent (peak 0); and the output always has
the same frame count as B.  (On the empty buffer np.max raises, so the claim
is read over buffers that have at least one frame.) -/
theorem normalize_audio_spec (B : List (ℚ × ℚ)) (hB : B ≠ []) :
    ∃ out, normalize_audio B = some out ∧ out.length = B.length ∧
      (0 < peakAbs B →
        out = B.map (fun s =>
          (s.1 * (99 / 100 / peakAbs B), s.2 * (99 / 100 / peakAbs B))) ∧
        peakAbs out = 99 / 100) ∧
      (peakAbs B = 0 → out = B) := by
  by_cases hp : 0 < peakAbs B
  · refine ⟨_, normalize_audio_pos B hB hp, by simp,
      fun _ => ⟨normalize_map_eq B, peakAbs_normalize B hp⟩,
      fun h0 => absurd (h0 ▸ hp) (lt_irrefl 0)⟩
  · exact ⟨B, normalize_audio_zero B hB hp, rfl, fun hc => absurd hc hp, fun _ => rfl⟩

/-- Witness for C4: a concrete nonempty buffer with peak 1/2 is scaled to
peak 99/100. -/
theorem normalize_audio_spec_witness :
    normalize_audio [((1 : ℚ) / 2, 0)] = some [((99 : ℚ) / 100, 0)] := by
  obtain ⟨out, h1, -, hpos, -⟩ := normalize_audio_spec [((1 : ℚ) / 2, 0)] (by simp)
  have hpk : peakAbs [((1 : ℚ) / 2, 0)] = 1 / 2 := by norm_num [peakAbs]
  have h2 := (hpos (by rw [hpk]; norm_num)).1
  rw [h1, h2, hpk]
  norm_num

/-- Claim C9: normalize_audio is idempotent: running it on its own output
(Option-composed with bind, since the first run can fail on the empty buffer)
returns the first output exactly. -/
theorem normalize_audio_idempotent (B : List (ℚ × ℚ)) :
    (normalize_audio B).bind normalize_audio = normalize_audio B := by
  by_cases hB : B = []
  · subst hB
    simp [normalize_audio]
  by_cases hp : 0 < peakAbs B
  · rw [normalize_audio_pos B hB hp]
    set out := B.map (fun s =>
      (s.1 / peakAbs B * (99 / 100), s.2 / peakAbs B * (99 / 100))) with hout
    have hne : out ≠ [] := by
      rw [hout]
      simpa using hB
    have hpk : peakAbs out = 99 / 100 := peakAbs_normalize B hp
    have hp2 : 0 < peakAbs out := by rw [hpk]; norm_num
    rw [Option.some_bind, normalize_audio_pos out hne hp2, hpk]
    congr 1
    have : ∀ a ∈ out, (a.1 / (99 / 100 : ℚ) * (99 / 100), a.2 / (99 / 100 : ℚ) * (99 / 100)) = a := by
      intro a _
      obtain ⟨a1, a2⟩ := a
      simp only [Prod.mk.injEq]
      constructor <;> exact div_mul_cancel₀ _ (by norm_num)
    rw [List.map_congr_left this, List.map_id']
  · rw [normalize_audio_zero B hB hp, Option.some_bind, normalize_audio_zero B hB hp]

/-- Claim C6: trim is the identity in every no-op case: on the full range
(0, 0); whenever start_sec <= 0 and (end_sec <= 0 or end_sec >= the total
duration); and whenever the computed start_frame >= end_frame, where the
original buffer is returned rather than an error or an empty clip. -/
theorem trim_noop (B : List (ℚ × ℚ)) (sr : ℕ) (startSec endSec : ℚ)
    (hsr : 0 < sr) :
    trim B sr 0 0 = some B ∧
    (startSec ≤ 0 ∧ (endSec ≤ 0 ∨ (B.length : ℚ) / (sr : ℚ) ≤ endSec) →
      trim B sr startSec endSec = some B) ∧
    (trimEndFrame B.length sr endSec ≤ trimStartFrame sr startSec →
      trim B sr startSec endSec = some B) := by
  have h0 : sr ≠ 0 := Nat.pos_iff_ne_zero.mp hsr
  refine ⟨?_, fun h => ?_, fun h => ?_⟩
  · unfold trim
    rw [if_neg h0, if_pos ⟨le_refl 0, Or.inl (le_refl 0)⟩]
  · unfold trim
    rw [if_neg h0, if_pos h]
  · unfold trim
    rw [if_neg h0]
    by_cases hc : startSec ≤ 0 ∧
        (endSec ≤ 0 ∨ (B.length : ℚ) / (sr : ℚ) ≤ endSec)
    · rw [if_pos hc]
    · rw [if_neg hc, if_pos h]

/-- Witness for C6: the full-range no-op and a malformed range
(start 2s, end 1s on a one-frame buffer) both return the buffer itself. -/
theorem trim_noop_witness :
    trim [((1 : ℚ), 1)] 1 0 0 = some [((1 : ℚ), 1)] ∧
    trim [((1 : ℚ), 1)] 1 2 1 = some [((1 : ℚ), 1)] := by
  refine ⟨(trim_noop [((1 : ℚ), 1)] 1 0 0 (by norm_num)).1, ?_⟩
  refine (trim_noop [((1 : ℚ), 1)] 1 2 1 (by norm_num)).2.2 ?_
  norm_num [trimEndFrame, trimStartFrame, ratTrunc]

/-- Claim C10: for a nonempty buffer and positive sample rate, trim always
succeeds and returns either the buffer itself or a nonempty contiguous
slice of it: there is a start offset s with s + length(out) <= length(B),
and every output frame equals the input frame at its source index s + i. -/
theorem trim_slice (B : List (ℚ × ℚ)) (sr : ℕ) (startSec endSec : ℚ)
    (hB : B ≠ []) (hsr : 0 < sr) :
    ∃ out s, trim B sr startSec endSec = some out ∧ out ≠ [] ∧
      s + out.length ≤ B.length ∧
      (out = B ∨ out = (B.drop s).take out.length) ∧
      ∀ i, i < out.length → out[i]? = B[s + i]? := by
  have h0 : sr ≠ 0 := Nat.pos_iff_ne_zero.mp hsr
  unfold trim
  rw [if_neg h0]
  by_cases hc : startSec ≤ 0 ∧ (endSec ≤ 0 ∨ (B.length : ℚ) / (sr : ℚ) ≤ endSec)
  · rw [if_pos hc]
    exact ⟨B, 0, rfl, hB, by simp, Or.inl rfl, fun i _ => by simp⟩
  rw [if_neg hc]
  by_cases hse : trimEndFrame B.length sr endSec ≤ trimStartFrame sr startSec
  · rw [if_pos hse]
    exact ⟨B, 0, rfl, hB, by simp, Or.inl rfl, fun i _ => by simp⟩
  · rw [if_neg hse]
    push_neg at hse
    set sF := trimStartFrame sr startSec with hsF
    set eF := trimEndFrame B.length sr endSec with heF
    have hs0 : (0 : ℤ) ≤ sF := by
      rw [hsF]; unfold trimStartFrame; exact le_max_left _ _
    have he0 : (0 : ℤ) ≤ eF := le_trans hs0 (le_of_lt hse)
    have heLen : eF ≤ (B.length : ℤ) := by
      rw [heF]; unfold trimEndFrame
      split
      · exact le_refl _
      · exact min_le_left _ _
    set sN := sF.toNat with hsN
    set eN := eF.toNat with heN
    have hsF2 : (sN : ℤ) = sF := Int.toNat_of_nonneg hs0
    have heF2 : (eN : ℤ) = eF := Int.toNat_of_nonneg he0
    have hlt : sN < eN := by
      rw [← hsF2, ← heF2] at hse
      exact_mod_cast hse
    have heLenN : eN ≤ B.length := by
      rw [← heF2] at heLen
      exact_mod_cast heLen
    have hsub : (eF - sF).toNat = eN - sN := by
      rw [← hsF2, ← heF2, ← Int.natCast_sub (le_of_lt hlt), Int.toNat_natCast]
    rw [hsub]
    set out := (B.drop sN).take (eN - sN) with hout
    have hlen : out.length = eN - sN := by
      rw [hout, List.length_take, List.length_drop]
      exact min_eq_left (Nat.sub_le_sub_right heLenN sN)
    refine ⟨out, sN, rfl, ?_, ?_, Or.inr (by rw [hlen]), ?_⟩
    · apply List.length_pos.mp
      rw [hlen]
      omega
    · rw [hlen]
      omega
    · intro i hi
      rw [hlen] at hi
      rw [hout, List.getElem?_take_of_lt hi, List.getElem?_drop]

/-- Witness for C10: trimming a two-frame buffer at 1 Hz from second 1 to
second 2 yields the one-frame slice starting at frame 1. -/
theorem trim_slice_witness :
    ∃ out s, trim [((1 : ℚ), 2), (3, 4)] 1 1 2 = some out ∧ out ≠ [] ∧
      s + out.length ≤ ([((1 : ℚ), 2), (3, 4)] : List (ℚ × ℚ)).length ∧
      (out = [((1 : ℚ), 2), (3, 4)] ∨
        out = (([((1 : ℚ), 2), (3, 4)] : List (ℚ × ℚ)).drop s).take out.length) ∧
      ∀ i, i < out.length →
        out[i]? = ([((1 : ℚ), 2), (3, 4)] : List (ℚ × ℚ))[s + i]? :=
  trim_slice [((1 : ℚ), 2), (3, 4)] 1 1 2 (by simp) (by norm_num)

/-- Claim C5: with d = int(sample_rate * width * 20 / 1000), the Stereo Width
effect is the identity when width <= 0.01 or d <= 0; otherwise it keeps the
frame count and the left channel, and the output right channel at frame i is
the original right channel at frame i - d for i >= d and at frame i itself
for i < d (wrap-pad with the original head, not zero-pad). -/
theorem stereo_width_spec (samples : List (ℚ × ℚ)) (sr : ℕ) (width : ℚ) :
    ((width ≤ 0.01 ∨ haasDelay sr width ≤ 0) →
      stereoWidthApply samples sr width = samples) ∧
    (¬(width ≤ 0.01 ∨ haasDelay sr width ≤ 0) →
      (stereoWidthApply samples sr width).length = samples.length ∧
      ∀ i, i < samples.length →
        ∃ s t, samples[i]? = some s ∧
          samples[if i < (haasDelay sr width).toNat then i
            else i - (haasDelay sr width).toNat]? = some t ∧
          (stereoWidthApply samples sr width)[i]? = some (s.1, t.2)) := by
  constructor
  · intro h
    unfold stereoWidthApply
    by_cases hw : width ≤ 0.01
    · rw [if_pos hw]
    · rw [if_neg hw, if_pos (h.resolve_left hw)]
  · intro h
    push_neg at h
    obtain ⟨hw, hd⟩ := h
    have hwne : ¬ width ≤ 0.01 := not_le.mpr hw
    have hdne : ¬ haasDelay sr width ≤ 0 := not_le.mpr hd
    unfold stereoWidthApply
    rw [if_neg hwne, if_neg hdne]
    set dN := (haasDelay sr width).toNat with hdN
    set right := samples.map Prod.snd with hright
    have hrlen : right.length = samples.length := by
      rw [hright, List.length_map]
    have hdel_len :
        (right.take dN ++ right.take (samples.length - dN)).length =
          samples.length := by
      rw [List.length_append, List.length_take, List.length_take, hrlen]
      omega
    constructor
    · rw [List.length_zipWith, hdel_len, min_self]
    · intro i hi
      have hsi : samples[i]? = some samples[i] := List.getElem?_eq_getElem hi
      by_cases hcase : i < dN
      · have hrd : (right.take dN ++ right.take (samples.length - dN))[i]? =
            some (samples[i]).2 := by
          rw [List.getElem?_append_left
              (by rw [List.length_take, hrlen]; exact lt_min hcase hi),
            List.getElem?_take_of_lt hcase, hright, List.getElem?_map, hsi,
            Option.map_some']
        refine ⟨samples[i], samples[i], hsi, by rw [if_pos hcase]; exact hsi, ?_⟩
        rw [List.getElem?_zipWith, hsi, hrd]
      · push_neg at hcase
        have hdlen : dN < samples.length := lt_of_le_of_lt hcase hi
        have ht : i - dN < samples.length := lt_of_le_of_lt (Nat.sub_le i dN) hi
        have hti : samples[i - dN]? = some samples[i - dN] :=
          List.getElem?_eq_getElem ht
        have hlen_take : (right.take dN).length = dN := by
          rw [List.length_take, hrlen]
          exact min_eq_left (le_of_lt hdlen)
        have hrd : (right.take dN ++ right.take (samples.length - dN))[i]? =
            some (samples[i - dN]).2 := by
          rw [List.getElem?_append_right (by rw [hlen_take]; exact hcase),
            hlen_take, List.getElem?_take_of_lt (by omega), hright,
            List.getElem?_map, hti, Option.map_some']
        refine ⟨samples[i], samples[i - dN], hsi,
          by rw [if_neg (not_lt.mpr hcase)]; exact hti, ?_⟩
        rw [List.getElem?_zipWith, hsi, hrd]

/-- Witness for C5: at width 1/2 and 200 Hz the delay is 2 frames, so on a
three-frame buffer the last output frame pairs the original left sample with
the right sample from two frames earlier. -/
theorem stereo_width_spec_witness :
    (stereoWidthApply [((1 : ℚ), 10), (2, 20), (3, 30)] 200 (1 / 2)).length = 3 ∧
    (stereoWidthApply [((1 : ℚ), 10), (2, 20), (3, 30)] 200 (1 / 2))[2]? =
      some (3, 10) := by
  have hd : haasDelay 200 (1 / 2) = 2 := by
    norm_num [haasDelay, ratTrunc]
  obtain ⟨hlen, hidx⟩ :=
    (stereo_width_spec [((1 : ℚ), 10), (2, 20), (3, 30)] 200 (1 / 2)).2
      (by rintro (h | h)
          · norm_num at h
          · rw [hd] at h
            norm_num at h)
  refine ⟨by simpa using hlen, ?_⟩
  obtain ⟨s, t, hs, ht, ho⟩ := hidx 2 (by norm_num)
  rw [hd] at ht
  norm_num at hs ht
  rw [ho, ← hs, ← ht]

/-- Claim C7: when any numeric parameter of convert_to_8d is outside its
documented range, the pipeline stops with the range ValueError of the first
offending parameter, carrying that parameter's name, before any stage runs:
the result is the same for every collaborator assignment whose path checks
pass, so neither load nor any effect nor the export is ever consulted. -/
theorem convert_to_8d_validates_first (c : Collab) (p : ConvertParams)
    (hIn : c.checkInput = Except.ok ()) (hOut : c.checkOutput = Except.ok ())
    (hbad : ¬ paramsInRange p) :
    ∃ e : RangeError, convert_to_8d c p = Except.error (ConvErr.range e) ∧
      badParamNamed p e.name ∧ ¬(e.minVal ≤ e.value ∧ e.value ≤ e.maxVal) ∧
      ∀ c' : Collab, c'.checkInput = Except.ok () →
        c'.checkOutput = Except.ok () →
        convert_to_8d c' p = convert_to_8d c p := by
  by_cases h1 : 1 / 100 ≤ p.panSpeed ∧ p.panSpeed ≤ 2
  case neg =>
    have key : ∀ cc : Collab, cc.checkInput = Except.ok () →
        cc.checkOutput = Except.ok () →
        convert_to_8d cc p =
          Except.error (ConvErr.range ⟨"pan_speed", p.panSpeed, 1 / 100, 2⟩) := by
      intro cc hI hO
      unfold convert_to_8d validate_param_range
      rw [hI, hO, if_neg h1]
      rfl
    exact ⟨⟨"pan_speed", p.panSpeed, 1 / 100, 2⟩, key c hIn hOut,
      Or.inl ⟨rfl, h1⟩, h1,
      fun c' hIn' hOut' => (key c' hIn' hOut').trans (key c hIn hOut).symm⟩
  by_cases h2 : 0 ≤ p.panDepth ∧ p.panDepth ≤ 1
  case neg =>
    have key : ∀ cc : Collab, cc.checkInput = Except.ok () →
        cc.checkOutput = Except.ok () →
        convert_to_8d cc p =
          Except.error (ConvErr.range ⟨"pan_depth", p.panDepth, 0, 1⟩) := by
      intro cc hI hO
      unfold convert_to_8d validate_param_range
      rw [hI, hO, if_pos h1, if_neg h2]
      rfl
    exact ⟨⟨"pan_depth", p.panDepth, 0, 1⟩, key c hIn hOut,
      Or.inr (Or.inl ⟨rfl, h2⟩), h2,
      fun c' hIn' hOut' => (key c' hIn' hOut').trans (key c hIn hOut).symm⟩
  by_cases h3 : 0 ≤ p.roomSize ∧ p.roomSize ≤ 1
  case neg =>
    have key : ∀ cc : Collab, cc.checkInput = Except.ok () →
        cc.checkOutput = Except.ok () →
        convert_to_8d cc p =
          Except.error (ConvErr.range ⟨"room_size", p.roomSize, 0, 1⟩) := by
      intro cc hI hO
      unfold convert_to_8d validate_param_range
      rw [hI, hO, if_pos h1, if_pos h2, if_neg h3]
      rfl
    exact ⟨⟨"room_size", p.roomSize, 0, 1⟩, key c hIn hOut,
      Or.inr (Or.inr (Or.inl ⟨rfl, h3⟩)), h3,
      fun c' hIn' hOut' => (key c' hIn' hOut').trans (key c hIn hOut).symm⟩
  by_cases h4 : 0 ≤ p.wetLevel ∧ p.wetLevel ≤ 1
  case neg =>
    have key : ∀ cc : Collab, cc.checkInput = Except.ok () →
        cc.checkOutput = Except.ok () →
        convert_to_8d cc p =
          Except.error (ConvErr.range ⟨"wet_level", p.wetLevel, 0, 1⟩) := by
      intro cc hI hO
      unfold convert_to_8d validate_param_range
      rw [hI, hO, if_pos h1, if_pos h2, if_pos h3, if_neg h4]
      rfl
    exact ⟨⟨"wet_level", p.wetLevel, 0, 1⟩, key c hIn hOut,
      Or.inr (Or.inr (Or.inr (Or.inl ⟨rfl, h4⟩))), h4,
      fun c' hIn' hOut' => (key c' hIn' hOut').trans (key c hIn hOut).symm⟩
  by_cases h5 : 0 ≤ p.damping ∧ p.damping ≤ 1
  case neg =>
    have key : ∀ cc : Collab, cc.checkInput = Except.ok () →
        cc.checkOutput = Except.ok () →
        convert_to_8d cc p =
          Except.error (ConvErr.range ⟨"damping", p.damping, 0, 1⟩) := by
      intro cc hI hO
      unfold convert_to_8d validate_param_range
      rw [hI, hO, if_pos h1, if_pos h2, if_pos h3, if_pos h4, if_neg h5]
      rfl
    exact ⟨⟨"damping", p.damping, 0, 1⟩, key c hIn hOut,
      Or.inr (Or.inr (Or.inr (Or.inr ⟨rfl, h5⟩))), h5,
      fun c' hIn' hOut' => (key c' hIn' hOut').trans (key c hIn hOut).symm⟩
  exact absurd ⟨h1, h2, h3, h4, h5⟩ hbad

/-- Witness for C7: with pan_speed = 3 (outside [0.01, 2]) the pipeline under
the inert collaborators stops with the pan_speed range error. -/
theorem convert_to_8d_validates_first_witness :
    (∃ e : RangeError,
      convert_to_8d trivCollab ⟨3, 1 / 2, 1 / 2, 1 / 2, 1 / 2⟩ =
        Except.error (ConvErr.range e) ∧
      badParamNamed ⟨3, 1 / 2, 1 / 2, 1 / 2, 1 / 2⟩ e.name ∧
      ¬(e.minVal ≤ e.value ∧ e.value ≤ e.maxVal) ∧
      ∀ c' : Collab, c'.checkInput = Except.ok () →
        c'.checkOutput = Except.ok () →
        convert_to_8d c' ⟨3, 1 / 2, 1 / 2, 1 / 2, 1 / 2⟩ =
          convert_to_8d trivCollab ⟨3, 1 / 2, 1 / 2, 1 / 2, 1 / 2⟩) ∧
    convert_to_8d trivCollab ⟨3, 1 / 2, 1 / 2, 1 / 2, 1 / 2⟩ =
      Except.error (ConvErr.range ⟨"pan_speed", 3, 1 / 100, 2⟩) := by
  constructor
  · exact convert_to_8d_validates_first trivCollab ⟨3, 1 / 2, 1 / 2, 1 / 2, 1 / 2⟩
      rfl rfl (by norm_num [paramsInRange])
  · unfold convert_to_8d validate_param_range trivCollab
    rw [if_neg (by norm_num : ¬((1 : ℚ) / 100 ≤ 3 ∧ (3 : ℚ) ≤ 2))]
    rfl

/-- Claim C8: every per-frame gain pair of the Rotation effect satisfies the
constant-power law: left^2 + right^2 = 1, in particular within 1e-5. -/
theorem rotation_constant_power (n sr : ℕ) (speed depth : ℝ) (i : ℕ) (l r : ℝ)
    (hl : (leftGains n sr speed depth)[i]? = some l)
    (hr : (rightGains n sr speed depth)[i]? = some r) :
    |l ^ 2 + r ^ 2 - 1| ≤ 1e-5 := by
  unfold leftGains at hl
  unfold rightGains at hr
  rw [List.getElem?_map] at hl hr
  cases ha : (panAngles n sr speed depth)[i]? with
  | none =>
    rw [ha] at hl
    simp at hl
  | some a =>
    rw [ha] at hl hr
    simp only [Option.map_some', Option.some.injEq] at hl hr
    rw [← hl, ← hr]
    have hpyth : Real.cos a ^ 2 + Real.sin a ^ 2 = 1 := by
      rw [add_comm]
      exact Real.sin_sq_add_cos_sq a
    rw [hpyth]
    norm_num

/-- Witness for C8: the frame-0 gain pair of a one-frame buffer is
(cos(pi/4), sin(pi/4)) and satisfies the constant-power law. -/
theorem rotation_constant_power_witness :
    |Real.cos (π / 4) ^ 2 + Real.sin (π / 4) ^ 2 - 1| ≤ 1e-5 := by
  have ha := panAngles_getElem 1 1 1 1 0 (by norm_num)
  norm_num at ha
  have ha4 : (panAngles 1 1 1 1)[0]? = some (π / 4) := by
    rw [ha]
    congr 1
    ring
  have hl : (leftGains 1 1 1 1)[0]? = some (Real.cos (π / 4)) := by
    unfold leftGains
    rw [List.getElem?_map, ha4, Option.map_some']
  have hr : (rightGains 1 1 1 1)[0]? = some (Real.sin (π / 4)) := by
    unfold rightGains
    rw [List.getElem?_map, ha4, Option.map_some']
  exact rotation_constant_power 1 1 1 1 0 _ _ hl hr

/-- Claim C1 (amended): each output frame of the Rotation effect is the input
frame multiplied channel-wise by the constant-power gains cos/sin of
angle = ((sin(2 pi speed t) depth) + 1) / 2 * (pi / 2), where the time of
frame i is the np.linspace grid point t = (N / sample_rate) * i / (N - 1)
(endpoint inclusive, N the frame count; 0 when N = 1), not
i / sample_rate as the specification words it. -/
theorem rotation_pan_formula (samples : List (ℝ × ℝ)) (sr : ℕ)
    (speed depth : ℝ) (i : ℕ) (s : ℝ × ℝ) (hs : samples[i]? = some s) :
    (apply_panning samples sr speed depth)[i]? =
      some (s.1 * Real.cos ((Real.sin (2 * π * speed *
              ((samples.length : ℝ) / (sr : ℝ) * i / ((samples.length : ℝ) - 1))) *
              depth + 1) / 2 * (π / 2)),
            s.2 * Real.sin ((Real.sin (2 * π * speed *
              ((samples.length : ℝ) / (sr : ℝ) * i / ((samples.length : ℝ) - 1))) *
              depth + 1) / 2 * (π / 2))) :=
  apply_panning_getElem samples sr speed depth i s hs

/-- Counterexample to C1 as stated: a 2-frame buffer at 1 Hz with
pan_speed 1/4 and pan_depth 1.  The code's linspace grid puts frame 1 at
t = 2 (angle pi/4, left gain sqrt2/2), while the claim's t = i/sample_rate
puts it at t = 1 (angle pi/2, left gain 0), so the outputs differ. -/
theorem rotation_pan_formula_cex :
    (apply_panning [((1:ℝ), 0), ((1:ℝ), 0)] 1 (1/4) 1)[1]? ≠
      some (specPanFrame ((1:ℝ), 0) 1 (1/4) 1 1) := by
  have hcode : (apply_panning [((1:ℝ), 0), ((1:ℝ), 0)] 1 (1/4) 1)[1]? =
      some (Real.cos (π/4), 0) := by
    have h := apply_panning_getElem [((1:ℝ), 0), ((1:ℝ), 0)] 1 (1/4) 1 1 (1, 0) rfl
    simp only [List.length_cons, List.length_nil] at h
    norm_num at h
    rw [h]
    have e1 : (2:ℝ) * π * (1/4) * 2 = π := by ring
    rw [e1, Real.sin_pi]
    norm_num
    rw [show (1:ℝ)/2*(π/2) = π/4 by ring]
    exact Real.cos_pi_div_four
  have hspec : specPanFrame ((1:ℝ), 0) 1 (1/4) 1 1 = (0, 0) := by
    unfold specPanFrame
    norm_num
    have e1 : (2:ℝ) * π * (1/4) = π/2 := by ring
    rw [e1, Real.sin_pi_div_two]
    norm_num
  rw [hcode, hspec]
  intro hEq
  have h1 : Real.cos (π/4) = 0 := congrArg Prod.fst (Option.some.inj hEq)
  rw [Real.cos_pi_div_four] at h1
  have h2 : (0:ℝ) < Real.sqrt 2 / 2 := by positivity
  exact absurd h1 (ne_of_gt h2)

/-- Witness for C1 (amended): on the 2-frame buffer the formula evaluates
frame 1 to (cos(pi/4), 0). -/
theorem rotation_pan_formula_witness :
    (apply_panning [((1:ℝ), 0), ((1:ℝ), 0)] 1 (1/4) 1)[1]? =
      some (Real.cos (π/4), 0) := by
  have h := rotation_pan_formula [((1:ℝ), 0), ((1:ℝ), 0)] 1 (1/4) 1 1 (1, 0) rfl
  simp only [List.length_cons, List.length_nil] at h
  norm_num at h
  rw [h]
  have e1 : (2:ℝ) * π * (1/4) * 2 = π := by ring
  rw [e1, Real.sin_pi]
  norm_num
  rw [show (1:ℝ)/2*(π/2) = π/4 by ring]
  exact Real.cos_pi_div_four

lemma panAngles_length (n sr : ℕ) (speed depth : ℝ) :
    (panAngles n sr speed depth).length = n := by
  simp [panAngles, linspace]

lemma panAngles_depth_zero (n sr : ℕ) (speed : ℝ) (j : ℕ) (hj : j < n) :
    (panAngles n sr speed 0)[j]? = some (π / 4) := by
  rw [panAngles_getElem n sr speed 0 j hj]
  congr 1
  ring

/-- Claim C2 (amended): at pan_depth = 0 the oscillator vanishes, so every
frame's pan angle is pi/4 and the left and right gain vectors coincide (both
sqrt2/2).  Each output frame is the input frame scaled channel-wise by
sqrt2/2, hence the two output channels agree (within 1e-5) exactly when the
two input channels agree; channels of a frame with different input channels
stay different. -/
theorem rotation_depth_zero (samples : List (ℝ × ℝ)) (sr : ℕ) (speed : ℝ)
    (i : ℕ) (s : ℝ × ℝ) (hs : samples[i]? = some s) :
    leftGains samples.length sr speed 0 = rightGains samples.length sr speed 0 ∧
    ∃ y, (apply_panning samples sr speed 0)[i]? = some y ∧
      y.1 = s.1 * (Real.sqrt 2 / 2) ∧ y.2 = s.2 * (Real.sqrt 2 / 2) ∧
      (s.1 = s.2 → |y.1 - y.2| ≤ 1e-5) := by
  have hgains : leftGains samples.length sr speed 0 =
      rightGains samples.length sr speed 0 := by
    apply List.ext_getElem?
    intro j
    unfold leftGains rightGains
    rw [List.getElem?_map, List.getElem?_map]
    by_cases hj : j < samples.length
    · rw [panAngles_depth_zero samples.length sr speed j hj, Option.map_some',
        Option.map_some', Real.cos_pi_div_four, Real.sin_pi_div_four]
    · rw [List.getElem?_eq_none (by rw [panAngles_length]; omega)]
      rfl
  have h := apply_panning_getElem samples sr speed 0 i s hs
  have hA : (Real.sin (2 * π * speed *
      ((samples.length : ℝ) / (sr : ℝ) * i / ((samples.length : ℝ) - 1))) *
      0 + 1) / 2 * (π / 2) = π / 4 := by ring
  rw [hA] at h
  refine ⟨hgains, ⟨_, h, ?_, ?_, ?_⟩⟩
  · rw [Real.cos_pi_div_four]
  · rw [Real.sin_pi_div_four]
  · intro hLR
    simp only [Real.cos_pi_div_four, Real.sin_pi_div_four, hLR, sub_self, abs_zero]
    norm_num

/-- Witness for C2 (amended): a one-frame buffer with equal channels (2, 2)
at pan_depth 0 keeps its channels equal. -/
theorem rotation_depth_zero_witness :
    leftGains 1 1 1 0 = rightGains 1 1 1 0 ∧
    ∃ y : ℝ × ℝ, (apply_panning [((2:ℝ), 2)] 1 1 0)[0]? = some y ∧
      y.1 = ((2:ℝ), (2:ℝ)).1 * (Real.sqrt 2 / 2) ∧
      y.2 = ((2:ℝ), (2:ℝ)).2 * (Real.sqrt 2 / 2) ∧
      (((2:ℝ), (2:ℝ)).1 = ((2:ℝ), (2:ℝ)).2 → |y.1 - y.2| ≤ (1e-5 : ℝ)) :=
  rotation_depth_zero [((2:ℝ), 2)] 1 1 0 (2, 2) rfl

/-- Counterexample to C2 as stated: at pan_depth = 0 the input frame (1, 0)
is mapped to (sqrt2/2, 0), whose channels differ by about 0.707, far more
than 1e-5: equal gains do not make unequal input channels equal. -/
theorem rotation_depth_zero_cex :
    (apply_panning [((1:ℝ), 0)] 1 1 0)[0]? = some (Real.sqrt 2 / 2, 0) ∧
    ¬ |Real.sqrt 2 / 2 - (0:ℝ)| ≤ 1e-5 := by
  constructor
  · have h := apply_panning_getElem [((1:ℝ), 0)] 1 1 0 0 (1, 0) rfl
    have hA : (Real.sin (2 * π * 1 *
        ((([((1:ℝ), 0)] : List (ℝ × ℝ)).length : ℝ) / ((1:ℕ) : ℝ) * (0:ℕ) /
          ((([((1:ℝ), 0)] : List (ℝ × ℝ)).length : ℝ) - 1))) *
        0 + 1) / 2 * (π / 2) = π / 4 := by ring
    rw [hA] at h
    rw [h, Real.cos_pi_div_four]
    norm_num
  · rw [sub_zero, abs_of_nonneg (by positivity)]
    intro hle
    have h2 : (1:ℝ) ≤ Real.sqrt 2 := by
      rw [show (1:ℝ) = Real.sqrt 1 from (Real.sqrt_one).symm]
      exact Real.sqrt_le_sqrt (by norm_num)
    norm_num at hle
    linarith

/-- Claim C3 (amended): in the non-identity regime warmth > 0.01 the Vinyl
Warmth output peak never exceeds 0.99 (the final rescale divides by the peak
whenever it exceeds 0.99); at warmth <= 0.01 the input is returned unchanged,
so a buffer already louder than 0.99 passes through unclamped. -/
theorem vinyl_warmth_peak (samples : List (ℝ × ℝ)) (sr : ℕ) (warmth : ℝ) :
    (warmth ≤ 0.01 → vinylWarmthApply samples sr warmth = some samples) ∧
    (¬ warmth ≤ 0.01 → ∀ out, vinylWarmthApply samples sr warmth = some out →
      peakAbs out ≤ 0.99) := by
  constructor
  · intro h
    unfold vinylWarmthApply
    rw [if_pos h]
  · intro h out hout
    unfold vinylWarmthApply at hout
    rw [if_neg h] at hout
    by_cases hnil : samples = []
    · rw [if_pos hnil] at hout
      exact absurd hout (by simp)
    rw [if_neg hnil] at hout
    by_cases hpk : 0.99 < peakAbs (vinylDriven samples sr warmth)
    · rw [if_pos hpk] at hout
      have hout2 := Option.some.inj hout
      have hp0 : (0:ℝ) < peakAbs (vinylDriven samples sr warmth) :=
        lt_trans (by norm_num) hpk
      rw [← hout2, peakAbs_map_mul _ _ (div_nonneg (by norm_num) (le_of_lt hp0)),
        mul_comm, div_mul_cancel₀ _ (ne_of_gt hp0)]
    · rw [if_neg hpk] at hout
      rw [← Option.some.inj hout]
      exact not_lt.mp hpk

/-- Counterexample to C3 as stated: at vinyl_warmth = 0 (inside the claimed
range [0, 1]) a buffer with peak 2 > 0.99 is returned unchanged by the
warmth <= 0.01 short-circuit, so its output peak is 2, not <= 0.99. -/
theorem vinyl_warmth_peak_cex :
    vinylWarmthApply [((2:ℝ), 0)] 44100 0 = some [((2:ℝ), 0)] ∧
    ¬ peakAbs [((2:ℝ), 0)] ≤ 0.99 := by
  constructor
  · unfold vinylWarmthApply
    rw [if_pos (by norm_num : (0:ℝ) ≤ 0.01)]
  · have hpk : peakAbs [((2:ℝ), 0)] = 2 := by
      simp [peakAbs]
    rw [hpk]
    norm_num

/-- Witness for C3 (amended): the warmth = 0 short-circuit returns the buffer
unchanged, and for warmth = 1 on a silent one-frame buffer the processed
output satisfies the 0.99 peak bound. -/
theorem vinyl_warmth_peak_witness :
    vinylWarmthApply [((1:ℝ), 0)] 1 0 = some [((1:ℝ), 0)] ∧
    peakAbs [((0:ℝ), (0:ℝ))] ≤ 0.99 := by
  constructor
  · exact (vinyl_warmth_peak [((1:ℝ), 0)] 1 0).1 (by norm_num)
  · refine (vinyl_warmth_peak [((0:ℝ), 0)] 1 1).2 (by norm_num) [((0:ℝ), 0)] ?_
    have hd : vinylDriven [((0:ℝ), 0)] 1 1 = [((0:ℝ), 0)] := by
      unfold vinylDriven
      simp [lowpass, iirStep, Real.tanh_zero]
    have hpk : peakAbs (vinylDriven [((0:ℝ), 0)] 1 1) = 0 := by
      rw [hd]
      simp [peakAbs]
    unfold vinylWarmthApply
    rw [if_neg (by norm_num : ¬(1:ℝ) ≤ 0.01), if_neg (by simp),
      if_neg (by rw [hpk]; norm_num), hd]
